import Mathlib

/-
Verification of the toroidal Game of Life implementation
(`conway/torroidal.py`): a shallow embedding of `ToroidalArray`,
`Point`, `Grid` (with its `__post_init__` validation) and `nextgen`,
together with theorems about wrapped indexing, grid construction and
the generation step.

Conventions of the embedding:
* Python `int` is `Int`; list indices resolved by the code are `Nat`.
* Python's `%` on a positive modulus agrees with `Int.emod` (`%` on
  `Int`), which is what the embedding uses.
* Operations that can raise (`ZeroDivisionError` from `% 0`,
  `ValueError` from `max(())` or from `Grid` validation) return
  `Option`/`Except`; `none`/`.error` models the raise.
* In-place mutation (`grid2[p] = v`) is explicit state passing: the
  mutating loop of `nextgen` becomes a `foldlM` threading the updated
  grid.
-/

set_option maxHeartbeats 1000000

def LIVE : Bool := true

def DEAD : Bool := false

/-- `ToroidalArray`: a list with wrap-around indexed access.  Only the
backing list (`self._list`) is state. -/
structure ToroidalArray (α : Type) where
  list : List α
deriving DecidableEq, Repr

namespace ToroidalArray

variable {α : Type}

/-- `len(self)` (`__len__`). -/
def length (a : ToroidalArray α) : Nat := a.list.length

/-- `_wrapped_index`: `wrapped = -index % len(self)`, then
`len(self) - wrapped` if `wrapped` is nonzero, else `0`.  On an empty
array Python raises `ZeroDivisionError`, modelled as `none`. -/
def wrappedIndex? (a : ToroidalArray α) (index : Int) : Option Nat :=
  if (a.list.length : Int) = 0 then none
  else
    let wrapped : Int := (-index) % (a.list.length : Int)
    if wrapped ≠ 0 then some ((a.list.length : Int) - wrapped).toNat
    else some 0

/-- `__getitem__`: resolve through `_wrapped_index`, then read. -/
def get? (a : ToroidalArray α) (index : Int) : Option α :=
  match a.wrappedIndex? index with
  | none => none
  | some k => a.list[k]?

/-- `__setitem__`: resolve through `_wrapped_index`, then write. -/
def set? (a : ToroidalArray α) (index : Int) (v : α) :
    Option (ToroidalArray α) :=
  match a.wrappedIndex? index with
  | none => none
  | some k => some ⟨a.list.set k v⟩

/-- `__delitem__`: resolve through `_wrapped_index`, then delete. -/
def delete? (a : ToroidalArray α) (index : Int) :
    Option (ToroidalArray α) :=
  match a.wrappedIndex? index with
  | none => none
  | some k => some ⟨a.list.eraseIdx k⟩

end ToroidalArray

/-- `Point`: an immutable pair of integer coordinates. -/
structure Point where
  x : Int
  y : Int
deriving DecidableEq, Repr

/-- `Point.__add__`: component-wise addition. -/
def Point.add (p rhs : Point) : Point := ⟨p.x + rhs.x, p.y + rhs.y⟩

instance : Add Point := ⟨Point.add⟩

/-- The module-level `dirs`: the 8 neighbor offsets.  The source keeps
them in a `set`; iteration order is irrelevant because they are only
summed over, so a list in the literal's order embeds it. -/
def dirs : List Point :=
  [⟨-1, -1⟩, ⟨-1, 0⟩, ⟨-1, 1⟩, ⟨0, -1⟩, ⟨0, 1⟩, ⟨1, -1⟩, ⟨1, 0⟩, ⟨1, 1⟩]

/-- `Grid` after a successful `__post_init__`: the dataclass fields.
`width`/`height` default to `None` and are never reassigned by
`__post_init__`, hence `Option Int`. -/
structure Grid where
  width : Option Int
  height : Option Int
  cells : ToroidalArray (ToroidalArray Bool)
deriving DecidableEq, Repr

/-- The `ValueError`s `Grid.__post_init__` can raise, plus the
`ValueError` that `max(len(row) for row in cells)` raises on an empty
`cells`. -/
inductive GridError where
  | invalidDimension
  | missingDimension
  | heightMismatch
  | widthMismatch
  | emptyMax
deriving DecidableEq, Repr

/-- Python truthiness of an optional int: `None` and `0` are falsy. -/
def pyTruthy : Option Int → Bool
  | none => false
  | some n => n != 0

/-- `max(len(row) for row in cells)`: `none` models the `ValueError`
raised on an empty sequence. -/
def maxRowLen? (c : ToroidalArray (ToroidalArray Bool)) : Option Nat :=
  match c.list.map (fun r => r.list.length) with
  | [] => none
  | x :: xs => some (xs.foldl max x)

namespace Grid

/-- `Grid(width, height, cells)` together with `__post_init__`,
following the source's checks in order:
1. `width == 0 or height == 0` → error;
2. `cells is None and not (width and height)` → error;
3. `cells is None` → build `[[DEAD] * width] * height` (recursively
   converted; `*` by a non-positive count yields an empty list, hence
   `Int.toNat`);
4. otherwise check the declared height against `len(cells)`, compute
   `max_width` (raising on zero rows), check a declared width against
   it, then extend every row by `[DEAD] * min(0, max_width - len(row))`
   (the source's `min` — a no-op — is kept verbatim). -/
def mk? (width height : Option Int)
    (cells : Option (ToroidalArray (ToroidalArray Bool))) :
    Except GridError Grid :=
  if width = some 0 ∨ height = some 0 then .error .invalidDimension
  else if cells = none ∧ ¬(pyTruthy width ∧ pyTruthy height) then
    .error .missingDimension
  else
    match cells with
    | none =>
        .ok { width := width, height := height,
              cells := ⟨List.replicate (height.getD 0).toNat
                ⟨List.replicate (width.getD 0).toNat DEAD⟩⟩ }
    | some c =>
        if height ≠ none ∧ height ≠ some (c.list.length : Int) then
          .error .heightMismatch
        else
          match maxRowLen? c with
          | none => .error .emptyMax
          | some maxWidth =>
              if Option.any (fun wv => decide (wv < (maxWidth : Int)))
                  width then
                .error .widthMismatch
              else
                .ok { width := width, height := height,
                      cells := ⟨c.list.map (fun row =>
                        ⟨row.list ++ List.replicate
                          (min 0 ((maxWidth : Int) -
                            row.list.length)).toNat DEAD⟩)⟩ }

/-- `Grid.from_2d_seq`: coerce every cell to `bool`, then construct
with only `cells` set. -/
def from2dSeq {α : Type} (toBool : α → Bool) (seq : List (List α)) :
    Except GridError Grid :=
  mk? none none
    (some ⟨seq.map (fun row => ⟨row.map toBool⟩)⟩)

/-- `Grid.__getitem__`: `self.cells[cell.y][cell.x]`, both levels
wrapped. -/
def get? (g : Grid) (cell : Point) : Option Bool :=
  match g.cells.get? cell.y with
  | none => none
  | some row => row.get? cell.x

/-- `Grid.__setitem__`: `self.cells[cell.y][cell.x] = value`.  Python
mutates the row object in place; functionally, the row at the wrapped
`y` is replaced by its updated copy. -/
def set? (g : Grid) (cell : Point) (value : Bool) : Option Grid :=
  match g.cells.wrappedIndex? cell.y with
  | none => none
  | some yi =>
      match g.cells.list[yi]? with
      | none => none
      | some row =>
          match row.set? cell.x value with
          | none => none
          | some newRow =>
              some { g with cells := ⟨g.cells.list.set yi newRow⟩ }

end Grid

/-- A grid is rectangular with `h` rows of `w` cells each. -/
def Grid.rect (g : Grid) (w h : Nat) : Prop :=
  g.cells.list.length = h ∧ ∀ row ∈ g.cells.list, row.list.length = w

instance (g : Grid) (w h : Nat) : Decidable (g.rect w h) := by
  unfold Grid.rect; infer_instance

/-- Direct (unwrapped) read of the cell in row `y`, column `x`. -/
def Grid.cellAt (g : Grid) (x y : Nat) : Bool :=
  (g.cells.list.getD y ⟨[]⟩).list.getD x false

/-- Direct (unwrapped) write of the cell in row `y`, column `x`. -/
def Grid.setCell (g : Grid) (x y : Nat) (v : Bool) : Grid :=
  { g with cells := ⟨g.cells.list.set y
      ⟨(g.cells.list.getD y ⟨[]⟩).list.set x v⟩⟩ }

/-- The number of live cells among the 8 toroidally-wrapped neighbors
of `(x, y)` on a `w × h` grid: for each of the 8 offsets, the neighbor
coordinate is reduced modulo the corresponding dimension. -/
def specNeighborCount (g : Grid) (w h x y : Nat) : Nat :=
  (dirs.filter (fun d =>
    g.cellAt ((((x : Int) + d.x) % (w : Int)).toNat)
      ((((y : Int) + d.y) % (h : Int)).toNat))).length

/-- The Game of Life rule as the spec states it: dead below 2 or above
3 live neighbors, live at exactly 3, unchanged at exactly 2. -/
def ruleValue (g1 : Grid) (w h x y : Nat) : Bool :=
  if specNeighborCount g1 w h x y < 2 ∨ 3 < specNeighborCount g1 w h x y
    then false
  else if specNeighborCount g1 w h x y = 3 then true
  else g1.cellAt x y

/-- `sum(grid1[p + d] for d in dirs)`: the booleans read from the 8
wrapped neighbor cells, summed as 0/1. -/
def liveNeighbors? (grid1 : Grid) (p : Point) : Option Nat := do
  let bs ← dirs.mapM (fun d => grid1.get? (p + d))
  pure (bs.count true)

/-- One iteration of `nextgen`'s inner loop body at point `p`: count
live neighbors from `grid1`, then write the ruled value into `grid2`. -/
def nextgenCell? (grid1 grid2 : Grid) (p : Point) : Option Grid := do
  let liveCount ← liveNeighbors? grid1 p
  if liveCount < 2 ∨ liveCount > 3 then grid2.set? p false
  else if liveCount = 3 then grid2.set? p true
  else do
    let c ← grid1.get? p
    grid2.set? p c

/-- `nextgen(grid1, grid2)`: for each row `y` of `grid1.cells` and each
`x` in `range(len(row))`, update `grid2` at `Point(x, y)`; the mutated
`grid2` is threaded through the loops and returned. -/
def nextgen? (grid1 grid2 : Grid) : Option Grid :=
  grid1.cells.list.enum.foldlM (fun acc yrow =>
    (List.range yrow.2.list.length).foldlM (fun acc2 (x : Nat) =>
      nextgenCell? grid1 acc2 ⟨(x : Int), (yrow.1 : Int)⟩) acc) grid2

/-- Concrete 2×2 source grid used in witnesses. -/
def c1SampleA : Grid := ⟨none, none, ⟨[⟨[true, false]⟩, ⟨[false, true]⟩]⟩⟩

/-- Concrete 2×2 destination grid used in witnesses. -/
def c1SampleB : Grid := ⟨none, none, ⟨[⟨[false, false]⟩, ⟨[true, true]⟩]⟩⟩

/-- Concrete 3×2 grid used in witnesses. -/
def c3Sample : Grid :=
  ⟨some 3, some 2, ⟨[⟨[true, false, false]⟩, ⟨[false, true, true]⟩]⟩⟩

/-- Concrete 2×2 source grid used in witnesses. -/
def c4SampleA : Grid := ⟨none, none, ⟨[⟨[true, true]⟩, ⟨[false, false]⟩]⟩⟩

/-- Concrete 2×2 destination grid used in witnesses. -/
def c4SampleB : Grid := ⟨none, none, ⟨[⟨[false, true]⟩, ⟨[true, false]⟩]⟩⟩

/-- A second concrete 2×2 destination grid with different contents. -/
def c4SampleC : Grid := ⟨none, none, ⟨[⟨[true, true]⟩, ⟨[true, true]⟩]⟩⟩

/-! Access lemmas relating the wrapped operations to direct reads and
writes on rectangular grids. -/

/-- The canonical residue is in range. -/
theorem emod_toNat_lt (i : Int) (n : Nat) (hn : n ≠ 0) :
    (i % (n : Int)).toNat < n := by
  have hn' : (0 : Int) < (n : Int) := by exact_mod_cast Nat.pos_of_ne_zero hn
  have h0 : 0 ≤ i % (n : Int) := Int.emod_nonneg _ (by omega)
  have h1 : i % (n : Int) < (n : Int) := Int.emod_lt_of_pos _ hn'
  omega

/-- An in-range natural number is its own residue. -/
theorem emod_toNat_self (x n : Nat) (hx : x < n) :
    (((x : Int)) % (n : Int)).toNat = x := by
  rw [Int.emod_eq_of_lt (by omega) (by exact_mod_cast hx)]
  exact Int.toNat_natCast x

/-- In-range `getElem?` expressed with a default read. -/
theorem getElem?_eq_some_getD {α : Type} (l : List α) (k : Nat) (d : α)
    (hk : k < l.length) : l[k]? = some (l.getD k d) := by
  rw [List.getElem?_eq_getElem hk, List.getD_eq_getElem l d hk]

/-- On a non-empty array the wrapped index is exactly the canonical
residue `index % length` (Python `%` semantics). -/
theorem ToroidalArray.wrappedIndex_eq_emod {α : Type} (a : ToroidalArray α) (i : Int)
    (hn : a.list.length ≠ 0) :
    a.wrappedIndex? i = some (i % (a.list.length : Int)).toNat := by
  have hn' : (0 : Int) < (a.list.length : Int) := by
    exact_mod_cast Nat.pos_of_ne_zero hn
  unfold ToroidalArray.wrappedIndex?
  rw [if_neg (by omega)]
  have hr0 : 0 ≤ i % (a.list.length : Int) := Int.emod_nonneg _ (by omega)
  have hr1 : i % (a.list.length : Int) < (a.list.length : Int) :=
    Int.emod_lt_of_pos _ hn'
  have hneg : (-i) % (a.list.length : Int) =
      (-(i % (a.list.length : Int))) % (a.list.length : Int) := by
    conv_lhs =>
      rw [show -i = -(i % (a.list.length : Int)) +
          (a.list.length : Int) * (-(i / (a.list.length : Int))) by
        have := Int.ediv_add_emod i (a.list.length : Int); linarith]
    rw [Int.add_mul_emod_self_left]
  by_cases hz : i % (a.list.length : Int) = 0
  · have : (-i) % (a.list.length : Int) = 0 := by
      rw [hneg, hz, neg_zero, Int.zero_emod]
    simp only [this]
    simp [hz]
  · have hw : (-i) % (a.list.length : Int) =
        (a.list.length : Int) - i % (a.list.length : Int) := by
      rw [hneg, Int.neg_emod]
      exact Int.emod_eq_of_lt (by omega) (by omega)
    simp only [hw]
    rw [if_pos (by omega)]
    congr 1
    omega

/-- `get?` on a non-empty `ToroidalArray` reads at the residue. -/
theorem ToroidalArray.get_eq_getD {α : Type} (a : ToroidalArray α)
    (i : Int) (hn : a.list.length ≠ 0) (d : α) :
    a.get? i = some (a.list.getD ((i % (a.list.length : Int)).toNat) d) := by
  have hlt := emod_toNat_lt i a.list.length hn
  simp only [get?, wrappedIndex_eq_emod a i hn]
  exact getElem?_eq_some_getD a.list _ d hlt

/-- `Grid.__getitem__` on a rectangular grid with positive dimensions
reads the cell at the two residues. -/
theorem Grid.get_eq_cellAt (g : Grid) (w h : Nat) (hg : g.rect w h)
    (hw : w ≠ 0) (hh : h ≠ 0) (a b : Int) :
    g.get? ⟨a, b⟩ = some (g.cellAt ((a % (w : Int)).toNat)
      ((b % (h : Int)).toNat)) := by
  obtain ⟨hlen, hrows⟩ := hg
  have hn : g.cells.list.length ≠ 0 := by omega
  have hblt := emod_toNat_lt b g.cells.list.length hn
  have hmem : g.cells.list.getD ((b % (g.cells.list.length : Int)).toNat)
      (⟨[]⟩ : ToroidalArray Bool) ∈ g.cells.list := by
    rw [List.getD_eq_getElem _ _ hblt]
    exact List.getElem_mem _
  have hrlen : (g.cells.list.getD ((b % (g.cells.list.length : Int)).toNat)
      (⟨[]⟩ : ToroidalArray Bool)).list.length = w := hrows _ hmem
  simp only [Grid.get?,
    ToroidalArray.get_eq_getD g.cells b hn (⟨[]⟩ : ToroidalArray Bool)]
  rw [ToroidalArray.get_eq_getD _ a (by omega) false]
  unfold Grid.cellAt
  rw [hrlen, hlen]

/-- `Grid.__setitem__` on a rectangular grid with positive dimensions
writes the cell at the two residues. -/
theorem Grid.set_eq_setCell (g : Grid) (w h : Nat) (hg : g.rect w h)
    (hw : w ≠ 0) (hh : h ≠ 0) (a b : Int) (v : Bool) :
    g.set? ⟨a, b⟩ v = some (g.setCell ((a % (w : Int)).toNat)
      ((b % (h : Int)).toNat) v) := by
  obtain ⟨hlen, hrows⟩ := hg
  have hn : g.cells.list.length ≠ 0 := by omega
  have hblt := emod_toNat_lt b g.cells.list.length hn
  have hmem : g.cells.list.getD ((b % (g.cells.list.length : Int)).toNat)
      (⟨[]⟩ : ToroidalArray Bool) ∈ g.cells.list := by
    rw [List.getD_eq_getElem _ _ hblt]
    exact List.getElem_mem _
  have hrlen : (g.cells.list.getD ((b % (g.cells.list.length : Int)).toNat)
      (⟨[]⟩ : ToroidalArray Bool)).list.length = w := hrows _ hmem
  simp only [Grid.set?, ToroidalArray.wrappedIndex_eq_emod g.cells b hn,
    getElem?_eq_some_getD g.cells.list _ (⟨[]⟩ : ToroidalArray Bool) hblt]
  simp only [ToroidalArray.set?,
    ToroidalArray.wrappedIndex_eq_emod _ a (by omega : (g.cells.list.getD
      ((b % (g.cells.list.length : Int)).toNat)
      (⟨[]⟩ : ToroidalArray Bool)).list.length ≠ 0)]
  unfold Grid.setCell
  rw [hrlen, hlen]

/-- `setCell` preserves rectangularity. -/
theorem Grid.rect_setCell (g : Grid) (w h : Nat) (hg : g.rect w h)
    (x y : Nat) (hy : y < h) (v : Bool) :
    (g.setCell x y v).rect w h := by
  obtain ⟨hlen, hrows⟩ := hg
  constructor
  · simp [Grid.setCell, hlen]
  · intro row hrow
    rcases List.mem_or_eq_of_mem_set hrow with hmem | heq
    · exact hrows row hmem
    · subst heq
      simp only [List.length_set]
      rw [List.getD_eq_getElem _ _ (by omega)]
      exact hrows _ (List.getElem_mem _)

/-- `setCell` preserves the `width` and `height` fields. -/
theorem Grid.setCell_dims (g : Grid) (x y : Nat) (v : Bool) :
    (g.setCell x y v).width = g.width ∧
      (g.setCell x y v).height = g.height := ⟨rfl, rfl⟩

/-- `getD` after `set` at the same in-range index yields the value. -/
theorem getD_set_self {α : Type} (l : List α) (k : Nat) (v d : α)
    (hk : k < l.length) : (l.set k v).getD k d = v := by
  rw [List.getD_eq_getElem _ _ (by simpa using hk), List.getElem_set_self]

/-- `getD` after `set` at a different index is unchanged. -/
theorem getD_set_ne {α : Type} (l : List α) (j k : Nat) (v d : α)
    (hjk : j ≠ k) : (l.set j v).getD k d = l.getD k d := by
  by_cases hk : k < l.length
  · rw [List.getD_eq_getElem _ _ (by simpa using hk),
      List.getElem_set_ne hjk, List.getD_eq_getElem _ _ hk]
  · rw [List.getD_eq_default _ _ (by simpa using (by omega : l.length ≤ k)),
      List.getD_eq_default _ _ (by omega)]

/-- Reading after `setCell`: the written cell holds `v`, every other
cell is unchanged. -/
theorem Grid.cellAt_setCell (g : Grid) (w h : Nat) (hg : g.rect w h)
    (x y : Nat) (hx : x < w) (hy : y < h) (v : Bool) (a b : Nat) :
    (g.setCell x y v).cellAt a b =
      if a = x ∧ b = y then v else g.cellAt a b := by
  obtain ⟨hlen, hrows⟩ := hg
  have hylt : y < g.cells.list.length := by omega
  have hrlen : (g.cells.list.getD y ⟨[]⟩).list.length = w := by
    rw [List.getD_eq_getElem _ _ hylt]
    exact hrows _ (List.getElem_mem _)
  unfold Grid.setCell Grid.cellAt
  simp only
  by_cases hb : b = y
  · subst hb
    rw [getD_set_self _ _ _ _ hylt]
    by_cases ha : a = x
    · subst ha
      rw [if_pos ⟨rfl, rfl⟩]
      exact getD_set_self _ _ _ _ (by omega)
    · rw [if_neg (by tauto)]
      exact getD_set_ne _ _ _ _ _ (fun hxa => ha hxa.symm)
  · rw [if_neg (by tauto)]
    rw [getD_set_ne g.cells.list y b _ _ (fun hyb => hb hyb.symm)]

/-- `mapM` over `Option` of a function that always succeeds. -/
theorem mapM_option_eq_map {α β : Type} (f : α → Option β) (v : α → β) :
    ∀ (l : List α), (∀ d ∈ l, f d = some (v d)) →
      l.mapM f = some (l.map v) := by
  intro l hl
  rw [← List.mapM'_eq_mapM]
  induction l with
  | nil => rfl
  | cons d rest ih =>
      simp only [List.mapM', hl d (List.mem_cons_self d rest)]
      rw [ih (fun e he => hl e (List.mem_cons_of_mem d he))]
      rfl

/-- Counting `true` in a mapped boolean list is filtering. -/
theorem count_true_map (l : List Point) (f : Point → Bool) :
    (l.map f).count true = (l.filter f).length := by
  rw [show (l.map f).count true = (l.map f).countP (· == true) from rfl,
    List.countP_map,
    show ((fun b => b == true) ∘ f) = f from by funext d; simp,
    List.countP_eq_length_filter]

/-- On a rectangular grid with positive dimensions, the source's
neighbor sum computes the spec's toroidal neighbor count. -/
theorem liveNeighbors_eq_spec (g : Grid) (w h : Nat) (hg : g.rect w h)
    (hw : w ≠ 0) (hh : h ≠ 0) (x y : Nat) :
    liveNeighbors? g ⟨(x : Int), (y : Int)⟩ =
      some (specNeighborCount g w h x y) := by
  unfold liveNeighbors?
  have hget : ∀ d ∈ dirs, g.get? (⟨(x : Int), (y : Int)⟩ + d) =
      some (g.cellAt ((((x : Int) + d.x) % (w : Int)).toNat)
        ((((y : Int) + d.y) % (h : Int)).toNat)) := by
    intro d _
    exact Grid.get_eq_cellAt g w h hg hw hh _ _
  rw [mapM_option_eq_map _ _ dirs hget]
  show some _ = _
  rw [count_true_map]
  rfl

/-- One loop-body iteration at an in-range point writes exactly the
rule value at that point. -/
theorem nextgenCell_eq (g1 g2 : Grid) (w h : Nat) (hg1 : g1.rect w h)
    (hg2 : g2.rect w h) (hw : w ≠ 0) (hh : h ≠ 0) (x y : Nat)
    (hx : x < w) (hy : y < h) :
    nextgenCell? g1 g2 ⟨(x : Int), (y : Int)⟩ =
      some (g2.setCell x y (ruleValue g1 w h x y)) := by
  unfold nextgenCell?
  rw [liveNeighbors_eq_spec g1 w h hg1 hw hh x y]
  show (if specNeighborCount g1 w h x y < 2 ∨
      specNeighborCount g1 w h x y > 3 then g2.set? _ false
    else if specNeighborCount g1 w h x y = 3 then g2.set? _ true
    else (g1.get? _).bind fun c => g2.set? _ c) = _
  unfold ruleValue
  by_cases h1 : specNeighborCount g1 w h x y < 2 ∨
      3 < specNeighborCount g1 w h x y
  · rw [if_pos h1, if_pos h1,
      Grid.set_eq_setCell g2 w h hg2 hw hh _ _ false,
      emod_toNat_self x w hx, emod_toNat_self y h hy]
  · rw [if_neg h1, if_neg h1]
    by_cases h2 : specNeighborCount g1 w h x y = 3
    · rw [if_pos h2, if_pos h2,
        Grid.set_eq_setCell g2 w h hg2 hw hh _ _ true,
        emod_toNat_self x w hx, emod_toNat_self y h hy]
    · rw [if_neg h2, if_neg h2,
        Grid.get_eq_cellAt g1 w h hg1 hw hh _ _,
        emod_toNat_self x w hx, emod_toNat_self y h hy]
      show g2.set? _ _ = _
      rw [Grid.set_eq_setCell g2 w h hg2 hw hh _ _ _,
        emod_toNat_self x w hx, emod_toNat_self y h hy]

/-- The inner loop of `nextgen` over `x ∈ range n` writes the rule
value at every `(x, y)` with `x < n` and changes nothing else. -/
theorem innerLoop_eq (g1 : Grid) (w h : Nat) (hw : w ≠ 0) (hh : h ≠ 0)
    (hg1 : g1.rect w h) (y : Nat) (hy : y < h) :
    ∀ (n : Nat), n ≤ w → ∀ (acc : Grid), acc.rect w h →
      ∃ acc2, (List.range n).foldlM (fun a (x : Nat) =>
          nextgenCell? g1 a ⟨(x : Int), (y : Int)⟩) acc = some acc2 ∧
        acc2.rect w h ∧ acc2.width = acc.width ∧
        acc2.height = acc.height ∧
        ∀ a b, a < w → b < h → acc2.cellAt a b =
          if b = y ∧ a < n then ruleValue g1 w h a y
          else acc.cellAt a b := by
  intro n
  induction n with
  | zero =>
      intro _ acc hacc
      refine ⟨acc, rfl, hacc, rfl, rfl, ?_⟩
      intro a b _ _
      rw [if_neg (by omega)]
  | succ n ih =>
      intro hn acc hacc
      obtain ⟨acc2, hfold, hrect, hwd, hht, hcells⟩ := ih (by omega) acc hacc
      rw [List.range_succ, List.foldlM_append, hfold]
      have hcell := nextgenCell_eq g1 acc2 w h hg1 hrect hw hh n y
        (by omega) hy
      refine ⟨acc2.setCell n y (ruleValue g1 w h n y), ?_, ?_, ?_, ?_, ?_⟩
      · show (List.foldlM _ _ _ : Option Grid) = _
        simp only [List.foldlM_cons, List.foldlM_nil, hcell,
          Option.bind_some, Option.some_bind, Option.bind_eq_bind]
        rfl
      · exact Grid.rect_setCell acc2 w h hrect n y hy _
      · rw [show (acc2.setCell n y (ruleValue g1 w h n y)).width =
          acc2.width from rfl, hwd]
      · rw [show (acc2.setCell n y (ruleValue g1 w h n y)).height =
          acc2.height from rfl, hht]
      · intro a b ha hb
        rw [Grid.cellAt_setCell acc2 w h hrect n y (by omega) hy _ a b,
          hcells a b ha hb]
        by_cases h1 : a = n ∧ b = y
        · rw [if_pos h1, if_pos ⟨h1.2, by omega⟩, h1.1]
        · rw [if_neg h1]
          by_cases h2 : b = y ∧ a < n
          · rw [if_pos h2, if_pos ⟨h2.1, by omega⟩]
          · rw [if_neg h2, if_neg (by omega)]

/-- The outer loop of `nextgen` over the enumerated rows starting at
row index `k` writes the rule value at every cell of those rows. -/
theorem outerLoop_eq (g1 : Grid) (w h : Nat) (hw : w ≠ 0) (hh : h ≠ 0)
    (hg1 : g1.rect w h) :
    ∀ (l : List (ToroidalArray Bool)) (k : Nat),
      (∀ row ∈ l, row.list.length = w) → k + l.length ≤ h →
      ∀ acc, acc.rect w h →
      ∃ acc2, (List.enumFrom k l).foldlM (fun acc3 yrow =>
          (List.range yrow.2.list.length).foldlM (fun a (x : Nat) =>
            nextgenCell? g1 a ⟨(x : Int), (yrow.1 : Int)⟩) acc3)
          acc = some acc2 ∧
        acc2.rect w h ∧ acc2.width = acc.width ∧
        acc2.height = acc.height ∧
        ∀ a b, a < w → b < h → acc2.cellAt a b =
          if k ≤ b ∧ b < k + l.length then ruleValue g1 w h a b
          else acc.cellAt a b := by
  intro l
  induction l with
  | nil =>
      intro k _ _ acc hacc
      refine ⟨acc, rfl, hacc, rfl, rfl, ?_⟩
      intro a b _ _
      rw [if_neg (by simp only [List.length_nil]; omega)]
  | cons row rest ih =>
      intro k hrows hk acc hacc
      have hkh : k < h := by
        simp only [List.length_cons] at hk
        omega
      obtain ⟨acc1, hfold1, hrect1, hwd1, hht1, hcells1⟩ :=
        innerLoop_eq g1 w h hw hh hg1 k hkh w (le_refl w) acc hacc
      obtain ⟨acc2, hfold2, hrect2, hwd2, hht2, hcells2⟩ :=
        ih (k + 1) (fun r hr => hrows r (List.mem_cons_of_mem row hr))
          (by simp at hk; omega) acc1 hrect1
      refine ⟨acc2, ?_, hrect2, hwd2.trans hwd1, hht2.trans hht1, ?_⟩
      · show (List.foldlM _ _ _ : Option Grid) = _
        rw [List.enumFrom_cons, List.foldlM_cons]
        simp only
        rw [hrows row (List.mem_cons_self row rest), hfold1]
        exact hfold2
      · intro a b ha hb
        rw [hcells2 a b ha hb]
        by_cases h1 : k + 1 ≤ b ∧ b < k + 1 + rest.length
        · rw [if_pos h1, if_pos (by simp; omega)]
        · rw [if_neg h1, hcells1 a b ha hb]
          by_cases h2 : b = k
          · rw [if_pos ⟨h2, ha⟩, if_pos (by simp; omega), h2]
          · rw [if_neg (by tauto), if_neg (by simp; omega)]

/-- `nextgen` on rectangular equal-dimension grids succeeds and every
cell of the result holds the rule value computed from `grid1`. -/
theorem nextgen_eq_spec (g1 g2 : Grid) (w h : Nat) (hw : w ≠ 0)
    (hh : h ≠ 0) (hg1 : g1.rect w h) (hg2 : g2.rect w h) :
    ∃ g3, nextgen? g1 g2 = some g3 ∧ g3.rect w h ∧
      g3.width = g2.width ∧ g3.height = g2.height ∧
      ∀ a b, a < w → b < h → g3.cellAt a b = ruleValue g1 w h a b := by
  obtain ⟨acc2, hfold, hrect, hwd, hht, hcells⟩ :=
    outerLoop_eq g1 w h hw hh hg1 g1.cells.list 0 hg1.2
      (by rw [hg1.1]; omega) g2 hg2
  refine ⟨acc2, ?_, hrect, hwd, hht, ?_⟩
  · unfold nextgen?
    rw [show g1.cells.list.enum = List.enumFrom 0 g1.cells.list from rfl]
    exact hfold
  · intro a b ha hb
    rw [hcells a b ha hb, if_pos ⟨by omega, by rw [hg1.1]; omega⟩]


/-! Further helper lemmas for the claim theorems. -/

/-- Residue of `-1` modulo a positive dimension is the last index. -/
theorem negOne_emod_toNat (n : Nat) (hn : n ≠ 0) :
    ((-1 : Int) % (n : Int)).toNat = n - 1 := by
  have hn' : (0 : Int) < (n : Int) := by
    exact_mod_cast Nat.pos_of_ne_zero hn
  rw [Int.neg_emod, Int.emod_eq_of_lt (by omega) (by omega)]
  omega

/-- Two rectangular grids with the same cell reads have equal cells. -/
theorem Grid.cells_ext (gA gB : Grid) (w h : Nat) (hA : gA.rect w h)
    (hB : gB.rect w h)
    (hcell : ∀ x y, x < w → y < h → gA.cellAt x y = gB.cellAt x y) :
    gA.cells = gB.cells := by
  obtain ⟨hlenA, hrowsA⟩ := hA
  obtain ⟨hlenB, hrowsB⟩ := hB
  have hlists : gA.cells.list = gB.cells.list := by
    apply List.ext_getElem (by omega)
    intro i h1 h2
    have hrlenA : gA.cells.list[i].list.length = w :=
      hrowsA _ (List.getElem_mem _)
    have hrlenB : gB.cells.list[i].list.length = w :=
      hrowsB _ (List.getElem_mem _)
    have hrows : gA.cells.list[i].list = gB.cells.list[i].list := by
      apply List.ext_getElem (by omega)
      intro j hj1 hj2
      have := hcell j i (by omega) (by omega)
      unfold Grid.cellAt at this
      rw [List.getD_eq_getElem _ _ h1, List.getD_eq_getElem _ _ h2,
        List.getD_eq_getElem _ _ hj1, List.getD_eq_getElem _ _ hj2] at this
      exact this
    exact congrArg ToroidalArray.mk hrows
  exact congrArg ToroidalArray.mk hlists

/-- `max()` over the row lengths raises exactly on an empty `cells`. -/
theorem maxRowLen_none_iff (c : ToroidalArray (ToroidalArray Bool)) :
    maxRowLen? c = none ↔ c.list = [] := by
  unfold maxRowLen?
  cases hc : c.list with
  | nil => simp
  | cons r rest => simp

/-- Success characterization of `Grid` construction: it succeeds
exactly when no dimension is zero, dimensions are inferable, any
declared height matches the row count, the rows are non-empty, and any
declared width is at least the maximum row length. -/
theorem Grid.mk_ok_iff (w h : Option Int)
    (c : Option (ToroidalArray (ToroidalArray Bool))) :
    (∃ g, Grid.mk? w h c = .ok g) ↔
      ¬(w = some 0 ∨ h = some 0) ∧
      (c = none → (pyTruthy w ∧ pyTruthy h)) ∧
      ∀ ca, c = some ca →
        (∀ hv, h = some hv → hv = (ca.list.length : Int)) ∧
        ca.list ≠ [] ∧
        ∀ wv mw, w = some wv → maxRowLen? ca = some mw →
          (mw : Int) ≤ wv := by
  by_cases h1 : w = some 0 ∨ h = some 0
  · have heval : Grid.mk? w h c = .error .invalidDimension := by
      unfold Grid.mk?
      rw [if_pos h1]
    rw [heval]
    constructor
    · rintro ⟨g, hg⟩
      cases hg
    · rintro ⟨hno, _, _⟩
      exact absurd h1 hno
  · cases c with
    | none =>
        by_cases h2 : pyTruthy w ∧ pyTruthy h
        · have hok : ∃ g, Grid.mk? w h none = .ok g := by
            unfold Grid.mk?
            rw [if_neg h1, if_neg (by simp [h2.1, h2.2])]
            exact ⟨_, rfl⟩
          constructor
          · intro _
            exact ⟨h1, fun _ => h2, fun ca hca => by cases hca⟩
          · intro _
            exact hok
        · have heval : Grid.mk? w h none = .error .missingDimension := by
            unfold Grid.mk?
            rw [if_neg h1, if_pos ⟨rfl, h2⟩]
          rw [heval]
          constructor
          · rintro ⟨g, hg⟩
            cases hg
          · rintro ⟨_, h5, _⟩
            exact absurd (h5 rfl) h2
    | some ca =>
        have heval : Grid.mk? w h (some ca) =
            (if h ≠ none ∧ h ≠ some (ca.list.length : Int) then
              Except.error GridError.heightMismatch
            else
              match maxRowLen? ca with
              | none => Except.error GridError.emptyMax
              | some maxWidth =>
                  if Option.any
                      (fun wv => decide (wv < (maxWidth : Int))) w then
                    Except.error GridError.widthMismatch
                  else
                    Except.ok { width := w, height := h,
                                cells := ⟨ca.list.map (fun row =>
                                  ⟨row.list ++ List.replicate
                                    (min 0 ((maxWidth : Int) -
                                      row.list.length)).toNat
                                    DEAD⟩)⟩ }) := by
          unfold Grid.mk?
          rw [if_neg h1, if_neg (by simp)]
        rw [heval]
        by_cases h3 : h ≠ none ∧ h ≠ some (ca.list.length : Int)
        · rw [if_pos h3]
          constructor
          · rintro ⟨g, hg⟩
            cases hg
          · rintro ⟨_, _, hca⟩
            obtain ⟨hh1, _, _⟩ := hca ca rfl
            obtain ⟨h3a, h3b⟩ := h3
            cases hcase : h with
            | none => exact (h3a hcase).elim
            | some hv => exact (h3b (by rw [hcase, hh1 hv hcase])).elim
        · rw [if_neg h3]
          cases hmax : maxRowLen? ca with
          | none =>
              simp only [hmax]
              have hemp : ca.list = [] := (maxRowLen_none_iff ca).mp hmax
              constructor
              · rintro ⟨g, hg⟩
                cases hg
              · rintro ⟨_, _, hca⟩
                exact ((hca ca rfl).2.1 hemp).elim
          | some mw =>
              simp only [hmax]
              by_cases h4 : Option.any
                  (fun wv => decide (wv < (mw : Int))) w = true
              · rw [if_pos h4]
                constructor
                · rintro ⟨g, hg⟩
                  cases hg
                · rintro ⟨_, _, hca⟩
                  obtain ⟨_, _, hwv⟩ := hca ca rfl
                  cases w with
                  | none =>
                      simp [Option.any] at h4
                  | some wv =>
                      simp only [Option.any, decide_eq_true_eq] at h4
                      have := hwv wv mw rfl hmax
                      omega
              · rw [if_neg h4]
                constructor
                · intro _
                  refine ⟨h1, ?_, ?_⟩
                  · intro hc0
                    exact absurd hc0 (by simp)
                  · intro ca2 hca2
                    injection hca2 with he
                    subst he
                    refine ⟨?_, ?_, ?_⟩
                    · intro hv hhv
                      rcases not_and_or.mp h3 with hna | hnb
                      · rw [not_not.mp hna] at hhv
                        cases hhv
                      · have hsome : h = some (ca.list.length : Int) :=
                          not_not.mp hnb
                        rw [hsome] at hhv
                        injection hhv with he2
                        exact he2.symm
                    · intro hemp
                      rw [(maxRowLen_none_iff _).mpr hemp] at hmax
                      cases hmax
                    · intro wv mw2 hwv2 hmax2
                      rw [hmax] at hmax2
                      injection hmax2 with he3
                      subst he3
                      rw [hwv2] at h4
                      simp only [Option.any, decide_eq_true_eq] at h4
                      omega
                · intro _
                  exact ⟨_, rfl⟩

/-! Claim theorems. -/

/-- **C1.** For every pair of grids of identical positive width and
height, the generation step succeeds, returns the destination grid
(the `width`/`height` fields are `grid2`'s), and writes into the
destination at every in-range `(x, y)`: dead when the count of live
cells among the 8 toroidally-wrapped neighbors of `(x, y)` in the
source is less than 2 or greater than 3, live when it equals 3, and
the source's value at `(x, y)` unchanged when it equals exactly 2. -/
theorem c1_generation_rule (g1 g2 : Grid) (w h : Nat) (hw : 0 < w)
    (hh : 0 < h) (hg1 : g1.rect w h) (hg2 : g2.rect w h) :
    ∃ g3, nextgen? g1 g2 = some g3 ∧ g3.width = g2.width ∧
      g3.height = g2.height ∧
      ∀ x y, x < w → y < h →
        g3.cellAt x y =
          if specNeighborCount g1 w h x y < 2 ∨
              3 < specNeighborCount g1 w h x y then DEAD
          else if specNeighborCount g1 w h x y = 3 then LIVE
          else g1.cellAt x y := by
  obtain ⟨g3, hng, _, hwd, hht, hc⟩ :=
    nextgen_eq_spec g1 g2 w h (by omega) (by omega) hg1 hg2
  refine ⟨g3, hng, hwd, hht, fun x y hx hy => ?_⟩
  rw [hc x y hx hy]
  rfl

/-- Witness for C1 at concrete 2×2 grids. -/
theorem c1_generation_rule_witness :
    ∃ g3, nextgen? c1SampleA c1SampleB = some g3 ∧
      g3.width = c1SampleB.width ∧ g3.height = c1SampleB.height ∧
      ∀ x y, x < 2 → y < 2 →
        g3.cellAt x y =
          if specNeighborCount c1SampleA 2 2 x y < 2 ∨
              3 < specNeighborCount c1SampleA 2 2 x y then DEAD
          else if specNeighborCount c1SampleA 2 2 x y = 3 then LIVE
          else c1SampleA.cellAt x y :=
  c1_generation_rule c1SampleA c1SampleB 2 2 (by decide) (by decide)
    (by decide) (by decide)

/-- **C2.** For every integer `i` and non-empty array of length `n`,
the wrapped index exists (no raise), lies in `[0, n)`, is periodic
with period `n` in both directions, and is the identity on `[0, n)`. -/
theorem c2_wrap_totality {α : Type} (a : ToroidalArray α) (i : Int)
    (hn : a.list.length ≠ 0) :
    ∃ k, a.wrappedIndex? i = some k ∧ k < a.list.length ∧
      a.wrappedIndex? (i + (a.list.length : Int)) = some k ∧
      a.wrappedIndex? (i - (a.list.length : Int)) = some k ∧
      (0 ≤ i → i < (a.list.length : Int) → (k : Int) = i) := by
  have hper : (i + (a.list.length : Int)) % (a.list.length : Int) =
      i % (a.list.length : Int) := by
    rw [show i + (a.list.length : Int) =
      i + (a.list.length : Int) * 1 by ring, Int.add_mul_emod_self_left]
  have hper2 : (i - (a.list.length : Int)) % (a.list.length : Int) =
      i % (a.list.length : Int) := by
    rw [show i - (a.list.length : Int) =
      i + (a.list.length : Int) * (-1) by ring,
      Int.add_mul_emod_self_left]
  refine ⟨(i % (a.list.length : Int)).toNat,
    ToroidalArray.wrappedIndex_eq_emod a i hn,
    emod_toNat_lt i a.list.length hn, ?_, ?_, ?_⟩
  · rw [ToroidalArray.wrappedIndex_eq_emod a _ hn, hper]
  · rw [ToroidalArray.wrappedIndex_eq_emod a _ hn, hper2]
  · intro h0 h1
    rw [Int.emod_eq_of_lt h0 h1, Int.toNat_of_nonneg h0]

/-- Witness for C2 on a length-3 array at `i = -4`. -/
theorem c2_wrap_totality_witness :
    ∃ k, (ToroidalArray.mk [10, 20, 30]).wrappedIndex? (-4) = some k ∧
      k < (ToroidalArray.mk [10, 20, 30]).list.length ∧
      (ToroidalArray.mk [10, 20, 30]).wrappedIndex?
        (-4 + ((ToroidalArray.mk [10, 20, 30]).list.length : Int)) =
          some k ∧
      (ToroidalArray.mk [10, 20, 30]).wrappedIndex?
        (-4 - ((ToroidalArray.mk [10, 20, 30]).list.length : Int)) =
          some k ∧
      (0 ≤ (-4 : Int) →
        (-4 : Int) < ((ToroidalArray.mk [10, 20, 30]).list.length : Int) →
        (k : Int) = -4) :=
  c2_wrap_totality (ToroidalArray.mk [10, 20, 30]) (-4) (by decide)

/-- **C3.** On every rectangular `w × h` grid with positive
dimensions, `(-1, -1)` and `(1, 1)` are among the 8 direction offsets,
the neighbor lookup from `(0, 0)` in direction `(-1, -1)` reads the
cell at `(w-1, h-1)`, the lookup from `(w-1, h-1)` in direction
`(1, 1)` reads the cell at `(0, 0)`, and every direction lookup from
every in-range cell succeeds (wraps instead of failing). -/
theorem c3_toroidal_adjacency (g : Grid) (w h : Nat) (hw : 0 < w)
    (hh : 0 < h) (hg : g.rect w h) :
    Point.mk (-1) (-1) ∈ dirs ∧ Point.mk 1 1 ∈ dirs ∧
    g.get? (Point.mk 0 0 + Point.mk (-1) (-1)) =
      some (g.cellAt (w - 1) (h - 1)) ∧
    g.get? (Point.mk ((w : Int) - 1) ((h : Int) - 1) + Point.mk 1 1) =
      some (g.cellAt 0 0) ∧
    ∀ d ∈ dirs, ∀ x y : Nat, x < w → y < h →
      (g.get? (Point.mk (x : Int) (y : Int) + d)).isSome := by
  have hw0 : w ≠ 0 := by omega
  have hh0 : h ≠ 0 := by omega
  refine ⟨by decide, by decide, ?_, ?_, ?_⟩
  · rw [show Point.mk 0 0 + Point.mk (-1) (-1) = Point.mk (-1) (-1)
      from by decide]
    rw [Grid.get_eq_cellAt g w h hg hw0 hh0 (-1) (-1),
      negOne_emod_toNat w hw0, negOne_emod_toNat h hh0]
  · rw [show Point.mk ((w : Int) - 1) ((h : Int) - 1) + Point.mk 1 1 =
      Point.mk (w : Int) (h : Int) from by
        show Point.mk ((w : Int) - 1 + 1) ((h : Int) - 1 + 1) = _
        rw [show (w : Int) - 1 + 1 = (w : Int) by ring,
          show (h : Int) - 1 + 1 = (h : Int) by ring]]
    rw [Grid.get_eq_cellAt g w h hg hw0 hh0 (w : Int) (h : Int),
      Int.emod_self, Int.emod_self]
    rfl
  · intro d _ x y hx hy
    rw [show Point.mk (x : Int) (y : Int) + d =
      Point.mk ((x : Int) + d.x) ((y : Int) + d.y) from rfl]
    rw [Grid.get_eq_cellAt g w h hg hw0 hh0]
    rfl

/-- Witness for C3 on a concrete 3×2 grid. -/
theorem c3_toroidal_adjacency_witness :
    Point.mk (-1) (-1) ∈ dirs ∧ Point.mk 1 1 ∈ dirs ∧
    c3Sample.get? (Point.mk 0 0 + Point.mk (-1) (-1)) =
      some (c3Sample.cellAt (3 - 1) (2 - 1)) ∧
    c3Sample.get? (Point.mk ((3 : Nat) - 1) ((2 : Nat) - 1) +
        Point.mk 1 1) =
      some (c3Sample.cellAt 0 0) ∧
    ∀ d ∈ dirs, ∀ x y : Nat, x < 3 → y < 2 →
      (c3Sample.get? (Point.mk (x : Int) (y : Int) + d)).isSome :=
  c3_toroidal_adjacency c3Sample 3 2 (by decide) (by decide) (by decide)

/-- **C4.** The generation step never touches the source grid (the
embedding only ever reads `grid1` through `Grid.get?`), and the result
written into the destination is determined solely by the source: for
any two destination grids of the same dimensions, whatever their prior
contents, the resulting cells are identical. -/
theorem c4_step_purity (g1 g2 g2b : Grid) (w h : Nat) (hw : 0 < w)
    (hh : 0 < h) (hg1 : g1.rect w h) (hg2 : g2.rect w h)
    (hg2b : g2b.rect w h) :
    ∃ r rb, nextgen? g1 g2 = some r ∧ nextgen? g1 g2b = some rb ∧
      r.cells = rb.cells := by
  obtain ⟨r, hr, hrect, _, _, hc⟩ :=
    nextgen_eq_spec g1 g2 w h (by omega) (by omega) hg1 hg2
  obtain ⟨rb, hrb, hrectb, _, _, hcb⟩ :=
    nextgen_eq_spec g1 g2b w h (by omega) (by omega) hg1 hg2b
  exact ⟨r, rb, hr, hrb, Grid.cells_ext r rb w h hrect hrectb
    (fun x y hx hy => (hc x y hx hy).trans (hcb x y hx hy).symm)⟩

/-- Witness for C4 on concrete 2×2 grids with different destination
contents. -/
theorem c4_step_purity_witness :
    ∃ r rb, nextgen? c4SampleA c4SampleB = some r ∧
      nextgen? c4SampleA c4SampleC = some rb ∧ r.cells = rb.cells :=
  c4_step_purity c4SampleA c4SampleB c4SampleC 2 2 (by decide)
    (by decide) (by decide) (by decide) (by decide)

/-- **C5** is violated by the code: constructing from the uneven rows
`[[LIVE], [LIVE, LIVE]]` (maximum row length 2) succeeds but performs
no padding — the source computes `min(0, max_width - len(row))`, which
is never positive, so the rows keep lengths `[1, 2]` instead of being
padded to `[2, 2]`. -/
theorem c5_padding_bug :
    Grid.mk? none none (some ⟨[⟨[LIVE]⟩, ⟨[LIVE, LIVE]⟩]⟩) =
      Except.ok ⟨none, none, ⟨[⟨[LIVE]⟩, ⟨[LIVE, LIVE]⟩]⟩⟩ ∧
    (⟨none, none, ⟨[⟨[LIVE]⟩, ⟨[LIVE, LIVE]⟩]⟩⟩ : Grid).cells.list.map
      (fun r => r.list.length) = [1, 2] := by
  exact ⟨rfl, rfl⟩

/-- **C6** as stated is false: a grid built by `from_2d_seq` (no
explicit dimensions) is constructed successfully with `width = None`
and `height = None`, which are not positive integers. -/
theorem c6_counterexample :
    Grid.from2dSeq (fun b : Bool => b) [[true]] =
      Except.ok ⟨none, none, ⟨[⟨[true]⟩]⟩⟩ := rfl

/-- **C6 (amended).** Successful construction keeps exactly the
`width` and `height` arguments passed in — `__post_init__` never
infers or reassigns them — so grids built with explicit dimensions
carry those values, while grids built only from `cells` (as
`from_2d_seq` does) have `None` for both. -/
theorem c6_amended_dims_preserved (w h : Option Int)
    (c : Option (ToroidalArray (ToroidalArray Bool))) (g : Grid)
    (hok : Grid.mk? w h c = .ok g) : g.width = w ∧ g.height = h := by
  by_cases h1 : w = some 0 ∨ h = some 0
  · have heval : Grid.mk? w h c = .error .invalidDimension := by
      unfold Grid.mk?
      rw [if_pos h1]
    rw [heval] at hok
    cases hok
  · cases c with
    | none =>
        by_cases h2 : pyTruthy w ∧ pyTruthy h
        · have heval : Grid.mk? w h none =
              .ok ⟨w, h, ⟨List.replicate (h.getD 0).toNat
                ⟨List.replicate (w.getD 0).toNat DEAD⟩⟩⟩ := by
            unfold Grid.mk?
            rw [if_neg h1, if_neg (by simp [h2.1, h2.2])]
          rw [heval] at hok
          injection hok with h5
          subst h5
          exact ⟨rfl, rfl⟩
        · have heval : Grid.mk? w h none =
              .error .missingDimension := by
            unfold Grid.mk?
            rw [if_neg h1, if_pos ⟨rfl, h2⟩]
          rw [heval] at hok
          cases hok
    | some ca =>
        have heval : Grid.mk? w h (some ca) =
            (if h ≠ none ∧ h ≠ some (ca.list.length : Int) then
              Except.error GridError.heightMismatch
            else
              match maxRowLen? ca with
              | none => Except.error GridError.emptyMax
              | some maxWidth =>
                  if Option.any
                      (fun wv => decide (wv < (maxWidth : Int))) w then
                    Except.error GridError.widthMismatch
                  else
                    Except.ok { width := w, height := h,
                                cells := ⟨ca.list.map (fun row =>
                                  ⟨row.list ++ List.replicate
                                    (min 0 ((maxWidth : Int) -
                                      row.list.length)).toNat
                                    DEAD⟩)⟩ }) := by
          unfold Grid.mk?
          rw [if_neg h1, if_neg (by simp)]
        rw [heval] at hok
        by_cases h3 : h ≠ none ∧ h ≠ some (ca.list.length : Int)
        · rw [if_pos h3] at hok
          cases hok
        · rw [if_neg h3] at hok
          cases hmax : maxRowLen? ca with
          | none =>
              simp only [hmax] at hok
              cases hok
          | some mw =>
              simp only [hmax] at hok
              by_cases h4 : Option.any
                  (fun wv => decide (wv < (mw : Int))) w = true
              · rw [if_pos h4] at hok
                cases hok
              · rw [if_neg h4] at hok
                injection hok with h5
                subst h5
                exact ⟨rfl, rfl⟩

/-- Witness for the amended C6 at explicit dimensions 2×1. -/
theorem c6_amended_dims_preserved_witness :
    (⟨some 2, some 1, ⟨[⟨[false, false]⟩]⟩⟩ : Grid).width = some 2 ∧
    (⟨some 2, some 1, ⟨[⟨[false, false]⟩]⟩⟩ : Grid).height = some 1 :=
  c6_amended_dims_preserved (some 2) (some 1) none
    ⟨some 2, some 1, ⟨[⟨[false, false]⟩]⟩⟩ rfl

/-- **C7** as stated is false at a `cells` argument with zero rows:
none of the claim's error conditions applies (no zero dimension,
`cells` present, no declared height or width to mismatch), so the
claim predicts success, yet construction fails — `max()` over the
empty sequence of row lengths raises. -/
theorem c7_counterexample :
    Grid.mk? none none (some ⟨[]⟩) =
      Except.error GridError.emptyMax := rfl

/-- **C7 (amended).** Construction succeeds exactly when: neither
dimension is declared zero; if `cells` is absent, both dimensions are
present and truthy; and if `cells` is present, any declared height
equals the row count, the row list is non-empty (with zero rows the
maximum-row-length computation fails), and any declared width is at
least the maximum row length.  Otherwise it errors, in the source's
check order. -/
theorem c7_amended_validation (w h : Option Int)
    (c : Option (ToroidalArray (ToroidalArray Bool))) :
    (∃ g, Grid.mk? w h c = .ok g) ↔
      ¬(w = some 0 ∨ h = some 0) ∧
      (c = none → (pyTruthy w ∧ pyTruthy h)) ∧
      ∀ ca, c = some ca →
        (∀ hv, h = some hv → hv = (ca.list.length : Int)) ∧
        ca.list ≠ [] ∧
        ∀ wv mw, w = some wv → maxRowLen? ca = some mw →
          (mw : Int) ≤ wv :=
  Grid.mk_ok_iff w h c

/-- **C8.** On a zero-length array every wrapped access — get, set or
delete, each of which resolves its index through `_wrapped_index` —
fails, for every integer index; on a non-empty array wrapped access
never fails. -/
theorem c8_empty_wrap {α : Type} (a : ToroidalArray α) (i : Int)
    (v : α) :
    (a.list.length = 0 → a.wrappedIndex? i = none ∧ a.get? i = none ∧
      a.set? i v = none ∧ a.delete? i = none) ∧
    (a.list.length ≠ 0 → (a.get? i).isSome ∧ (a.set? i v).isSome ∧
      (a.delete? i).isSome) := by
  constructor
  · intro h0
    have hz : a.wrappedIndex? i = none := by
      unfold ToroidalArray.wrappedIndex?
      rw [if_pos (by exact_mod_cast h0)]
    exact ⟨hz, by simp [ToroidalArray.get?, hz],
      by simp [ToroidalArray.set?, hz],
      by simp [ToroidalArray.delete?, hz]⟩
  · intro hn
    have heq := ToroidalArray.wrappedIndex_eq_emod a i hn
    have hlt := emod_toNat_lt i a.list.length hn
    refine ⟨?_, ?_, ?_⟩
    · simp [ToroidalArray.get?, heq, List.getElem?_eq_getElem hlt]
    · simp [ToroidalArray.set?, heq]
    · simp [ToroidalArray.delete?, heq]

/-- Witness for C8: access on an empty array fails, on a non-empty
array succeeds. -/
theorem c8_empty_wrap_witness :
    (ToroidalArray.mk ([] : List Bool)).get? 5 = none ∧
      ((ToroidalArray.mk [true, false]).get? 5).isSome :=
  ⟨((c8_empty_wrap (ToroidalArray.mk ([] : List Bool)) 5 true).1
      rfl).2.1,
    ((c8_empty_wrap (ToroidalArray.mk [true, false]) 5 true).2
      (by decide)).1⟩

/-- **C9.** Constructing a grid from explicit positive width and
height with no cells argument succeeds and produces exactly `height`
rows, each of length exactly `width`, with every cell dead. -/
theorem c9_explicit_dims_all_dead (wv hv : Int) (hw : 0 < wv)
    (hh : 0 < hv) :
    ∃ g, Grid.mk? (some wv) (some hv) none = .ok g ∧
      g.width = some wv ∧ g.height = some hv ∧
      g.cells.list.length = hv.toNat ∧
      ∀ row ∈ g.cells.list, row.list.length = wv.toNat ∧
        ∀ cell ∈ row.list, cell = DEAD := by
  have hok : Grid.mk? (some wv) (some hv) none =
      .ok ⟨some wv, some hv, ⟨List.replicate hv.toNat
        ⟨List.replicate wv.toNat DEAD⟩⟩⟩ := by
    unfold Grid.mk?
    rw [if_neg (by simp; omega), if_neg (by simp [pyTruthy]; omega)]
    rfl
  refine ⟨_, hok, rfl, rfl, by simp, ?_⟩
  intro row hrow
  rw [List.eq_of_mem_replicate hrow]
  exact ⟨by simp, fun cell hcell => List.eq_of_mem_replicate hcell⟩

/-- Witness for C9 at width 2, height 1. -/
theorem c9_explicit_dims_all_dead_witness :
    ∃ g, Grid.mk? (some 2) (some 1) none = .ok g ∧
      g.width = some 2 ∧ g.height = some 1 ∧
      g.cells.list.length = (1 : Int).toNat ∧
      ∀ row ∈ g.cells.list, row.list.length = (2 : Int).toNat ∧
        ∀ cell ∈ row.list, cell = DEAD :=
  c9_explicit_dims_all_dead 2 1 (by decide) (by decide)

/-- **C10.** Constructing from a `cells` structure with zero rows
fails for every combination of declared dimensions, and with no
declared dimensions (so that nothing conflicts) the failure is the
`max()`-on-empty-sequence error, which is none of the named
validation errors. -/
theorem c10_zero_rows_always_fails :
    (∀ w h : Option Int, ∃ e, Grid.mk? w h (some ⟨[]⟩) = .error e) ∧
    Grid.mk? none none (some ⟨[]⟩) =
      .error GridError.emptyMax := by
  constructor
  · intro w h
    have hno : ¬∃ g, Grid.mk? w h (some ⟨[]⟩) = .ok g := by
      rw [Grid.mk_ok_iff]
      rintro ⟨_, _, hca⟩
      exact (hca ⟨[]⟩ rfl).2.1 rfl
    cases hmk : Grid.mk? w h (some ⟨[]⟩) with
    | error e => exact ⟨e, rfl⟩
    | ok g => exact absurd ⟨g, hmk⟩ hno
  · rfl

/-- Witness for the amended C7: a well-formed construction succeeds. -/
theorem c7_amended_validation_witness :
    ∃ g, Grid.mk? (some 2) (some 3) none = .ok g :=
  (c7_amended_validation (some 2) (some 3) none).mpr
    ⟨by decide, fun _ => by decide, fun ca hca => by cases hca⟩
